import Mathlib

/-!
Verification of the history-cache-and-normalization component of
`live_data_server.py` (a TradingView datafeed HTTP proxy over yfinance).

Shallow embedding:
  * provider rows (`hist.iterrows()`) become `Obs` records: a second-resolution
    timestamp plus rational OHLC prices and an optional rational volume
    (`none` models both an absent `Volume` column and a NaN value, the two
    cases coerced to 0 by the source);
  * the two class-level dicts `data_cache` / `cache_expiry` become association
    lists with Python-dict insert/lookup semantics;
  * `time.time()` becomes an explicit rational `now` parameter;
  * the yfinance call `ticker.history(period=..., interval=...)` becomes an
    explicit `provider` function argument returning `Except String (List Obs)`
    (`Except.error` models a raised exception, carrying `str(e)`);
  * Python `round(x, 2)` (round-half-to-even) becomes `round2`, Python
    `int(x)` on a float (truncation toward zero) becomes `pyInt`;
  * `bars.sort(key=lambda x: x[\x7btime-key\x7d])` becomes a stable insertion
    sort by the `time` field.
-/

/- The rational operations below are marked irreducible upstream; restore
the default reducibility so that concrete executions of the embedded code
can be evaluated inside proofs by `decide`. -/
set_option allowUnsafeReducibility true in
attribute [semireducible] Rat.mul Rat.inv Rat.add Rat.sub

/-- A provider observation: one row of the yfinance history frame.
`ts` is `int(index.timestamp())`, in seconds. `volume = none` models an
absent or NaN `Volume` entry. -/
structure Obs where
  ts : Int
  priceOpen : ℚ
  priceHigh : ℚ
  priceLow : ℚ
  priceClose : ℚ
  volume : Option ℚ
deriving DecidableEq

/-- One element of the `bars` list built in `handle_history`:
`time` is in milliseconds, prices are rounded to 2 decimal places. -/
structure Bar where
  time : Int
  barOpen : ℚ
  barHigh : ℚ
  barLow : ℚ
  barClose : ℚ
  volume : Int
deriving DecidableEq

/-- The JSON body `handle_history` sends: exactly one of the three shapes
`s = ok` (with the six parallel arrays), `s = no_data`, or
`s = error` with `errmsg`. -/
inductive Response where
  | ok (t : List Int) (o : List ℚ) (h : List ℚ) (l : List ℚ) (c : List ℚ) (v : List Int)
  | noData
  | error (errmsg : String)
deriving DecidableEq

/-- Whether a response is the success envelope. -/
def Response.isOk : Response → Bool
  | .ok _ _ _ _ _ _ => true
  | _ => false

/-- The two class-level dicts of `LiveDataServer`:
`data_cache : Dict[str, Any]` and `cache_expiry : Dict[str, float]`. -/
structure ServerState where
  data_cache : List (String × Response)
  cache_expiry : List (String × ℚ)
deriving DecidableEq

/-- The state at process start: both dicts empty. -/
def initState : ServerState := ⟨[], []⟩

/-- Python-dict assignment `d[k] = v`: the new binding shadows and removes
any previous binding of `k`. -/
def dictInsert {α : Type} (k : String) (v : α) (l : List (String × α)) :
    List (String × α) :=
  (k, v) :: l.filter (fun p => p.1 != k)

/-- Python `round(q, 2)`: round half to even at 2 decimal places
(modelled on exact rationals). -/
def round2 (q : ℚ) : ℚ :=
  let s := q * 100
  let f : Int := Int.floor s
  let r := s - (f : ℚ)
  let n : Int :=
    if r < 1 / 2 then f
    else if 1 / 2 < r then f + 1
    else if f % 2 = 0 then f else f + 1
  (n : ℚ) / 100

/-- Python `int(x)` on a float: truncation toward zero. -/
def pyInt (q : ℚ) : Int :=
  if q < 0 then -Int.floor (-q) else Int.floor q

/-- The bar dict appended for one observation (source lines 213-220):
time in milliseconds = seconds * 1000, prices rounded to 2 places,
volume `int(row.Volume)` when present and not NaN, else 0. -/
def mkBar (o : Obs) : Bar :=
  ⟨o.ts * 1000, round2 o.priceOpen, round2 o.priceHigh, round2 o.priceLow,
    round2 o.priceClose,
    match o.volume with
    | some v => pyInt v
    | none => 0⟩

/-- The range filter of source line 212: `from_ts <= timestamp <= to_ts`,
compared in seconds. -/
def inRange (from_ts to_ts : Int) (o : Obs) : Bool :=
  decide (from_ts ≤ o.ts) && decide (o.ts ≤ to_ts)

/-- The loop of source lines 207-220: keep in-range observations, in
provider order, as bars. -/
def filteredBars (hist : List Obs) (from_ts to_ts : Int) : List Bar :=
  (hist.filter (inRange from_ts to_ts)).map mkBar

/-- The ordering used by `bars.sort(key=...)`: by the `time` field. -/
def barLE (a b : Bar) : Prop := a.time ≤ b.time

instance : DecidableRel barLE := fun a b => inferInstanceAs (Decidable (a.time ≤ b.time))

instance : IsTotal Bar barLE := ⟨fun a b => le_total a.time b.time⟩

instance : IsTrans Bar barLE := ⟨fun _ _ _ h h2 => le_trans h h2⟩

/-- Source line 223: a stable sort of the bars by time. -/
def sortBars (bars : List Bar) : List Bar :=
  List.insertionSort barLE bars

/-- The success envelope of source lines 225-233: six parallel arrays
projected from the sorted bars. -/
def okResponse (hist : List Obs) (from_ts to_ts : Int) : Response :=
  let bars := sortBars (filteredBars hist from_ts to_ts)
  .ok (bars.map Bar.time) (bars.map Bar.barOpen) (bars.map Bar.barHigh)
    (bars.map Bar.barLow) (bars.map Bar.barClose) (bars.map Bar.volume)

/-- Source line 172: `cache_key = f"..."` joining the four request fields
with underscores. -/
def cache_key (symbol resolution : String) (from_ts to_ts : Int) : String :=
  symbol ++ "_" ++ resolution ++ "_" ++ toString from_ts ++ "_" ++ toString to_ts

/-- Source line 175: the cache test
`cache_key in data_cache and current_time < cache_expiry.get(cache_key, 0)`;
on success the cached response is served. -/
def cacheLookup (st : ServerState) (key : String) (now : ℚ) : Option Response :=
  if (st.data_cache.lookup key).isSome ∧ now < (st.cache_expiry.lookup key).getD 0
  then st.data_cache.lookup key
  else none

/-- Source lines 236-237: store the response and set expiry to now + 300. -/
def cachePut (st : ServerState) (key : String) (resp : Response) (now : ℚ) :
    ServerState :=
  ⟨dictInsert key resp st.data_cache, dictInsert key (now + 300) st.cache_expiry⟩

/-- Source lines 188-196: the period / interval pair is chosen from the
resolution alone. -/
def periodInterval (resolution : String) : String × String :=
  if resolution = "1D" then ("2y", "1d")
  else if resolution = "60" ∨ resolution = "240" then ("60d", "1h")
  else ("7d", "5m")

/-- The argument triple of the upstream call
`yf.Ticker(symbol).history(period=period, interval=interval)`.
`start_date` / `end_date` (source lines 184-185) are computed from
`from_ts` / `to_ts` but never passed to the provider, so the triple
ignores them. -/
def upstreamQuery (symbol resolution : String) (from_ts to_ts : Int) :
    String × String × String :=
  (symbol, (periodInterval resolution).1, (periodInterval resolution).2)

/-- Result of one `handle_history` call: the JSON body sent, the new server
state, and the upstream query issued on this call (`none` on a cache hit). -/
structure HistResult where
  response : Response
  state : ServerState
  providerCall : Option (String × String × String)
deriving DecidableEq

/-- Source lines 161-245, `handle_history`: serve from cache when fresh;
otherwise query the provider with a resolution-determined window, answer
`no_data` on an empty frame (without caching), build / filter / sort the
bars and cache the success envelope for 300 seconds, and turn any raised
exception into an `error` body. -/
def handle_history (st : ServerState) (now : ℚ) (symbol resolution : String)
    (from_ts to_ts : Int)
    (provider : String → String → String → Except String (List Obs)) :
    HistResult :=
  let key := cache_key symbol resolution from_ts to_ts
  match cacheLookup st key now with
  | some v => ⟨v, st, none⟩
  | none =>
    let q := upstreamQuery symbol resolution from_ts to_ts
    match provider q.1 q.2.1 q.2.2 with
    | .error e => ⟨.error e, st, some q⟩
    | .ok hist =>
      if hist.isEmpty then ⟨.noData, st, some q⟩
      else
        let resp := okResponse hist from_ts to_ts
        ⟨resp, cachePut st key resp now, some q⟩

/-- Every body `handle_history` sends goes through `send_json_response`
(source lines 252-260), which always answers HTTP 200. -/
def sendJsonStatus : Nat := 200

/-- Server states reachable from process start by any sequence of
`/history` requests. -/
inductive Reachable : ServerState → Prop where
  | init : Reachable initState
  | step (st : ServerState) (now : ℚ) (symbol resolution : String)
      (from_ts to_ts : Int)
      (provider : String → String → String → Except String (List Obs)) :
      Reachable st →
      Reachable (handle_history st now symbol resolution from_ts to_ts provider).state

/-- One entry of the hardcoded symbol catalog (source lines 132-140). -/
structure SymbolDescriptor where
  symbol : String
  full_name : String
  description : String
  exchange : String
  type : String
deriving DecidableEq

/-- The `all_symbols` catalog literal of `handle_search`. -/
def all_symbols : List SymbolDescriptor :=
  [⟨"AAPL", "Apple Inc.", "Apple Inc.", "NASDAQ", "stock"⟩,
   ⟨"MSFT", "Microsoft Corporation", "Microsoft Corporation", "NASDAQ", "stock"⟩,
   ⟨"GOOGL", "Alphabet Inc.", "Alphabet Inc.", "NASDAQ", "stock"⟩,
   ⟨"AMZN", "Amazon.com Inc.", "Amazon.com Inc.", "NASDAQ", "stock"⟩,
   ⟨"TSLA", "Tesla Inc.", "Tesla Inc.", "NASDAQ", "stock"⟩,
   ⟨"NVDA", "NVIDIA Corporation", "NVIDIA Corporation", "NASDAQ", "stock"⟩,
   ⟨"META", "Meta Platforms Inc.", "Meta Platforms Inc.", "NASDAQ", "stock"⟩]

/-- One entry of the search response array (source lines 150-157):
the descriptor fields plus `ticker`, set to the symbol code. -/
structure SearchResult where
  symbol : String
  full_name : String
  description : String
  exchange : String
  ticker : String
  type : String
deriving DecidableEq

/-- The response dict built for one matching descriptor. -/
def toSearchResult (s : SymbolDescriptor) : SearchResult :=
  ⟨s.symbol, s.full_name, s.description, s.exchange, s.symbol, s.type⟩

/-- Containment of one character list in another: some suffix of the
haystack starts with the needle. -/
def listInfix (needle : List Char) : List Char → Bool
  | [] => needle.isEmpty
  | c :: rest => needle.isPrefixOf (c :: rest) || listInfix needle rest

/-- Python `needle in haystack` on strings: substring containment. -/
def strIn (needle haystack : String) : Bool :=
  listInfix needle.data haystack.data

/-- Python `s.upper()` on the ASCII strings of the catalog: upper-case
every character. -/
def pyUpper (s : String) : String :=
  ⟨s.data.map Char.toUpper⟩

/-- Source lines 126-159, `handle_search`: upper-case the query, keep the
descriptors whose symbol code or upper-cased full name contains it (all of
them when the query is empty), truncate to `limit`, and shape the result
dicts. `limit` is the non-negative count parsed from the `limit` query
parameter (default 10). -/
def handle_search (query : String) (limit : Nat) : List SearchResult :=
  let q := pyUpper query
  let filtered :=
    if q ≠ "" then
      all_symbols.filter (fun s => strIn q s.symbol || strIn q (pyUpper s.full_name))
    else all_symbols
  (filtered.take limit).map toSearchResult

theorem lookup_filter_ne {α : Type} (k k2 : String) (l : List (String × α))
    (h : k2 ≠ k) : (l.filter (fun p => p.1 != k)).lookup k2 = l.lookup k2 := by
  induction l with
  | nil => rfl
  | cons p rest ih =>
    by_cases hp : p.1 = k
    · have hb : (p.1 != k) = false := by simp [hp]
      have hk2 : (k2 == p.1) = false := by simp [hp, h]
      simp [List.filter, hb, List.lookup, hk2, ih]
    · have hb : (p.1 != k) = true := by simp [hp]
      by_cases hk2 : k2 = p.1
      · simp [List.filter, hb, List.lookup, hk2]
      · have hk2b : (k2 == p.1) = false := by simp [hk2]
        simp [List.filter, hb, List.lookup, hk2b, ih]

theorem lookup_dictInsert_self {α : Type} (k : String) (v : α)
    (l : List (String × α)) : (dictInsert k v l).lookup k = some v := by
  simp [dictInsert, List.lookup]

theorem lookup_dictInsert_ne {α : Type} (k k2 : String) (v : α)
    (l : List (String × α)) (h : k2 ≠ k) :
    (dictInsert k v l).lookup k2 = l.lookup k2 := by
  have hk2 : (k2 == k) = false := by simp [h]
  simp [dictInsert, List.lookup, hk2, lookup_filter_ne k k2 l h]

/-- C7: `get` returns the cached value exactly when the current time is
strictly before the stored expiry (with expiry defaulting to 0 for a
missing key); an expired or missing entry makes the lookup behave as
absent, and nothing is deleted: on the provider-error path the whole
server state, expired entries included, is returned unchanged. -/
theorem cache_get_expiry_semantics (st : ServerState) (key : String) (now : ℚ)
    (symbol resolution : String) (from_ts to_ts : Int) (e : String) :
    cacheLookup st key now =
      (if now < (st.cache_expiry.lookup key).getD 0
       then st.data_cache.lookup key else none) ∧
    (handle_history st now symbol resolution from_ts to_ts
        (fun _ _ _ => Except.error e)).state = st := by
  constructor
  · cases h : st.data_cache.lookup key <;> simp [cacheLookup, h]
  · unfold handle_history
    cases hc : cacheLookup st (cache_key symbol resolution from_ts to_ts) now <;>
      simp [hc]

/-- C9: `handle_search` truncates to at most `limit` results, keeps the
matching descriptors in catalog declaration order, returns the truncated
full catalog on an empty query, and in particular: searching "AAPL" with
limit 10 yields exactly one result whose symbol is "AAPL", an empty query
with limit 3 yields exactly the first 3 catalog entries, and searching
"ZZZZ" yields nothing. -/
theorem search_filters_and_truncates (query : String) (limit : Nat) :
    (handle_search query limit).length ≤ limit ∧
    List.Sublist (handle_search query limit) (all_symbols.map toSearchResult) ∧
    handle_search "" limit = (all_symbols.take limit).map toSearchResult ∧
    (handle_search "AAPL" 10).map SearchResult.symbol = ["AAPL"] ∧
    handle_search "" 3 = (all_symbols.take 3).map toSearchResult ∧
    (handle_search "" 3).length = 3 ∧
    handle_search "ZZZZ" 10 = [] := by
  refine ⟨?_, ?_, rfl, by decide, by decide, by decide, by decide⟩
  · simp only [handle_search, List.length_map, List.length_take]
    omega
  · simp only [handle_search]
    refine List.Sublist.map _ (List.Sublist.trans (List.take_sublist _ _) ?_)
    split
    · exact List.filter_sublist _
    · exact List.Sublist.refl _

/-- C3: the upstream query triple is a function of symbol and resolution
alone (the caller's from/to never reach the provider); every provider call
`handle_history` makes uses exactly that triple; resolution "1D" maps to a
2-year window with daily sampling, "60" and "240" to a 60-day window with
hourly sampling, and every other resolution to a 7-day window with
5-minute sampling. -/
theorem upstream_window_fixed_by_resolution (st : ServerState) (now : ℚ)
    (symbol resolution : String) (from_ts to_ts from_ts2 to_ts2 : Int)
    (provider : String → String → String → Except String (List Obs)) :
    ((handle_history st now symbol resolution from_ts to_ts provider).providerCall
        = none ∨
      (handle_history st now symbol resolution from_ts to_ts provider).providerCall
        = some (symbol, (periodInterval resolution).1, (periodInterval resolution).2)) ∧
    upstreamQuery symbol resolution from_ts to_ts
      = upstreamQuery symbol resolution from_ts2 to_ts2 ∧
    periodInterval "1D" = ("2y", "1d") ∧
    periodInterval "60" = ("60d", "1h") ∧
    periodInterval "240" = ("60d", "1h") ∧
    (resolution ≠ "1D" → resolution ≠ "60" → resolution ≠ "240" →
      periodInterval resolution = ("7d", "5m")) := by
  refine ⟨?_, rfl, by decide, by decide, by decide, ?_⟩
  · unfold handle_history
    cases hc : cacheLookup st (cache_key symbol resolution from_ts to_ts) now
    · cases hp : provider symbol (periodInterval resolution).1 (periodInterval resolution).2
      · simp [hc, hp, upstreamQuery]
      · rename_i hist
        by_cases he : hist.isEmpty <;> simp [hc, hp, he, upstreamQuery]
    · simp [hc]
  · intro h1 h2 h3
    simp [periodInterval, h1, h2, h3]

/-- Witness for the hypothesis-bearing conjunct of
`upstream_window_fixed_by_resolution`, at resolution "5". -/
theorem upstream_window_fixed_by_resolution_witness :
    periodInterval "5" = ("7d", "5m") :=
  (upstream_window_fixed_by_resolution initState 0 "AAPL" "5" 0 1 2 3
    (fun _ _ _ => Except.ok [])).2.2.2.2.2 (by decide) (by decide) (by decide)

/-- A provider returning one in-range observation (timestamp 50 s). -/
def provOne : String → String → String → Except String (List Obs) :=
  fun _ _ _ => Except.ok [⟨50, 1, 2, 1, 2, some 5⟩]

/-- A provider returning an empty history frame. -/
def provEmpty : String → String → String → Except String (List Obs) :=
  fun _ _ _ => Except.ok []

/-- A provider raising an exception with message "boom". -/
def provErr : String → String → String → Except String (List Obs) :=
  fun _ _ _ => Except.error "boom"

/-- C5: on a cache miss, a provider call yielding zero observations makes
`handle_history` answer exactly the no-data body and leave the server
state (hence the cache) unchanged: no entry is created for the key. -/
theorem no_data_not_cached (st : ServerState) (now : ℚ)
    (symbol resolution : String) (from_ts to_ts : Int)
    (provider : String → String → String → Except String (List Obs))
    (hmiss : cacheLookup st (cache_key symbol resolution from_ts to_ts) now = none)
    (hempty : provider symbol (periodInterval resolution).1
        (periodInterval resolution).2 = Except.ok []) :
    handle_history st now symbol resolution from_ts to_ts provider =
      ⟨Response.noData, st, some (upstreamQuery symbol resolution from_ts to_ts)⟩ := by
  unfold handle_history
  simp [hmiss, upstreamQuery, hempty]

/-- Witness for `no_data_not_cached` at a concrete request. -/
theorem no_data_not_cached_witness :
    handle_history initState 5 "AAPL" "1D" 0 100 provEmpty =
      ⟨Response.noData, initState, some (upstreamQuery "AAPL" "1D" 0 100)⟩ :=
  no_data_not_cached initState 5 "AAPL" "1D" 0 100 provEmpty (by decide) rfl

/-- C4 (amended): on a cache miss, a provider exception with message `e` is
caught and served as the error body whose errmsg is exactly `e` (so it is
non-empty exactly when the exception's message is), the server state is
unchanged, and the body is delivered through `send_json_response` with
HTTP status 200 — never as a transport-level failure. -/
theorem history_error_caught_as_json (st : ServerState) (now : ℚ)
    (symbol resolution : String) (from_ts to_ts : Int) (e : String)
    (hmiss : cacheLookup st (cache_key symbol resolution from_ts to_ts) now = none) :
    handle_history st now symbol resolution from_ts to_ts
        (fun _ _ _ => Except.error e) =
      ⟨Response.error e, st, some (upstreamQuery symbol resolution from_ts to_ts)⟩ ∧
    sendJsonStatus = 200 := by
  constructor
  · unfold handle_history
    simp [hmiss, upstreamQuery]
  · rfl

/-- Witness for `history_error_caught_as_json` at a concrete request. -/
theorem history_error_caught_as_json_witness :
    handle_history initState 5 "AAPL" "1D" 0 100
        (fun _ _ _ => Except.error "boom") =
      ⟨Response.error "boom", initState, some (upstreamQuery "AAPL" "1D" 0 100)⟩ ∧
    sendJsonStatus = 200 :=
  history_error_caught_as_json initState 5 "AAPL" "1D" 0 100 "boom" (by decide)

/-- C4 counterexample: the code copies `str(e)` into errmsg verbatim, so an
exception whose message is the empty string is served with an empty
errmsg, contradicting the claim that errmsg is always non-empty. -/
theorem history_error_message_can_be_empty :
    (handle_history initState 0 "AAPL" "1D" 0 100
        (fun _ _ _ => Except.error "")).response = Response.error "" ∧
    ("" : String).length = 0 :=
  ⟨by decide, rfl⟩

theorem round2_two_decimals (q : ℚ) : ∃ m : Int, round2 q * 100 = m := by
  have h : ∀ n : Int, ((n : ℚ) / 100) * 100 = (n : ℚ) := by
    intro n
    rw [div_mul_cancel₀]
    norm_num
  unfold round2
  exact ⟨_, h _⟩

theorem pyInt_nonneg (q : ℚ) (h : 0 ≤ q) : 0 ≤ pyInt q := by
  unfold pyInt
  rw [if_neg (not_lt.mpr h)]
  exact Int.floor_nonneg.mpr h

/-- C8 (amended): each bar built from a provider observation stores the
observation timestamp (seconds) times 1000 as its time, the four prices
rounded to 2 decimal places (each rounded price times 100 is an integer),
volume 0 when the observation volume is absent or NaN, and otherwise the
truncation toward zero of the observation volume — which is a non-negative
integer whenever the observation volume is non-negative (the code itself
does not enforce non-negativity). -/
theorem bar_fields_from_observation (ob : Obs) :
    (mkBar ob).time = ob.ts * 1000 ∧
    (mkBar ob).barOpen = round2 ob.priceOpen ∧
    (mkBar ob).barHigh = round2 ob.priceHigh ∧
    (mkBar ob).barLow = round2 ob.priceLow ∧
    (mkBar ob).barClose = round2 ob.priceClose ∧
    (∃ m : Int, (mkBar ob).barOpen * 100 = m) ∧
    (∃ m : Int, (mkBar ob).barHigh * 100 = m) ∧
    (∃ m : Int, (mkBar ob).barLow * 100 = m) ∧
    (∃ m : Int, (mkBar ob).barClose * 100 = m) ∧
    (ob.volume = none → (mkBar ob).volume = 0) ∧
    (∀ w, ob.volume = some w → (mkBar ob).volume = pyInt w) ∧
    (∀ w, ob.volume = some w → 0 ≤ w → 0 ≤ (mkBar ob).volume) := by
  refine ⟨rfl, rfl, rfl, rfl, rfl, round2_two_decimals _, round2_two_decimals _,
    round2_two_decimals _, round2_two_decimals _, ?_, ?_, ?_⟩
  · intro hnone
    simp [mkBar, hnone]
  · intro w hw
    simp [mkBar, hw]
  · intro w hw hw0
    simp only [mkBar, hw]
    exact pyInt_nonneg w hw0

/-- Witness for `bar_fields_from_observation`: a present volume is
truncated and non-negative for a non-negative observation, an absent or
NaN volume becomes 0. -/
theorem bar_fields_from_observation_witness :
    (mkBar ⟨50, 1, 2, 1, 2, some (5 / 2)⟩).volume = pyInt (5 / 2) ∧
    (0 : Int) ≤ (mkBar ⟨50, 1, 2, 1, 2, some (5 / 2)⟩).volume ∧
    (mkBar ⟨50, 1, 2, 1, 2, none⟩).volume = 0 :=
  ⟨(bar_fields_from_observation ⟨50, 1, 2, 1, 2, some (5 / 2)⟩).2.2.2.2.2.2.2.2.2.2.1
      (5 / 2) rfl,
    (bar_fields_from_observation ⟨50, 1, 2, 1, 2, some (5 / 2)⟩).2.2.2.2.2.2.2.2.2.2.2
      (5 / 2) rfl (by norm_num),
    (bar_fields_from_observation ⟨50, 1, 2, 1, 2, none⟩).2.2.2.2.2.2.2.2.2.1 rfl⟩

/-- C8 counterexample: the code applies Python `int` to whatever volume the
provider row carries, so an observation with volume -5 yields a bar whose
volume is the negative integer -5, contradicting the claim that a present,
numeric volume always yields a non-negative integer. -/
theorem bar_volume_can_be_negative :
    (mkBar ⟨0, 1, 1, 1, 1, some (-5)⟩).volume = -5 ∧
    (mkBar ⟨0, 1, 1, 1, 1, some (-5)⟩).volume < 0 := by
  constructor <;> decide

theorem handle_history_ok_response (st : ServerState) (now : ℚ)
    (symbol resolution : String) (from_ts to_ts : Int)
    (provider : String → String → String → Except String (List Obs))
    (hist : List Obs) (t : List Int) (o h l c : List ℚ) (v : List Int)
    (hmiss : cacheLookup st (cache_key symbol resolution from_ts to_ts) now = none)
    (hp : provider symbol (periodInterval resolution).1
        (periodInterval resolution).2 = Except.ok hist)
    (hok : (handle_history st now symbol resolution from_ts to_ts provider).response
        = Response.ok t o h l c v) :
    t = (sortBars (filteredBars hist from_ts to_ts)).map Bar.time ∧
    o = (sortBars (filteredBars hist from_ts to_ts)).map Bar.barOpen ∧
    h = (sortBars (filteredBars hist from_ts to_ts)).map Bar.barHigh ∧
    l = (sortBars (filteredBars hist from_ts to_ts)).map Bar.barLow ∧
    c = (sortBars (filteredBars hist from_ts to_ts)).map Bar.barClose ∧
    v = (sortBars (filteredBars hist from_ts to_ts)).map Bar.volume := by
  unfold handle_history at hok
  simp only [hmiss, upstreamQuery, hp] at hok
  by_cases he : hist.isEmpty
  · simp [he] at hok
  · simp only [he, Bool.false_eq_true, if_false, okResponse] at hok
    obtain ⟨h1, h2, h3, h4, h5, h6⟩ := (Response.ok.injEq _ _ _ _ _ _ _ _ _ _ _ _).mp hok.symm
    exact ⟨h1, h2, h3, h4, h5, h6⟩

/-- C1: on a fresh fetch, every time in the success body is 1000 times a
second-resolution timestamp lying in the inclusive range
[from_ts, to_ts], and the times are, up to ordering, exactly the
millisecond timestamps of the provider observations whose second-resolution
timestamp lies in that closed range: every out-of-range observation is
discarded. -/
theorem history_bars_within_requested_range (st : ServerState) (now : ℚ)
    (symbol resolution : String) (from_ts to_ts : Int)
    (provider : String → String → String → Except String (List Obs))
    (hist : List Obs) (t : List Int) (o h l c : List ℚ) (v : List Int)
    (hmiss : cacheLookup st (cache_key symbol resolution from_ts to_ts) now = none)
    (hp : provider symbol (periodInterval resolution).1
        (periodInterval resolution).2 = Except.ok hist)
    (hok : (handle_history st now symbol resolution from_ts to_ts provider).response
        = Response.ok t o h l c v) :
    (∀ x ∈ t, ∃ s : Int, from_ts ≤ s ∧ s ≤ to_ts ∧ x = s * 1000) ∧
    t.Perm ((hist.filter (inRange from_ts to_ts)).map (fun ob => ob.ts * 1000)) := by
  obtain ⟨ht, _, _, _, _, _⟩ := handle_history_ok_response st now symbol resolution
    from_ts to_ts provider hist t o h l c v hmiss hp hok
  have hmap : (filteredBars hist from_ts to_ts).map Bar.time
      = (hist.filter (inRange from_ts to_ts)).map (fun ob => ob.ts * 1000) := by
    simp only [filteredBars, List.map_map]
    rfl
  have hperm : t.Perm ((hist.filter (inRange from_ts to_ts)).map
      (fun ob => ob.ts * 1000)) := by
    rw [ht, ← hmap]
    exact (List.perm_insertionSort barLE (filteredBars hist from_ts to_ts)).map Bar.time
  refine ⟨?_, hperm⟩
  intro x hx
  have hx2 : x ∈ (hist.filter (inRange from_ts to_ts)).map (fun ob => ob.ts * 1000) :=
    hperm.mem_iff.mp hx
  obtain ⟨ob, hob, rfl⟩ := List.mem_map.mp hx2
  have hr := List.of_mem_filter hob
  simp only [inRange, Bool.and_eq_true, decide_eq_true_eq] at hr
  exact ⟨ob.ts, hr.1, hr.2, rfl⟩

/-- Witness for `history_bars_within_requested_range`: a single observation
at second 50 inside [0, 100] appears as the single bar time 50000. -/
theorem history_bars_within_requested_range_witness :
    (∃ s : Int, (0 : Int) ≤ s ∧ s ≤ 100 ∧ (50000 : Int) = s * 1000) ∧
    List.Perm [(50000 : Int)]
      ((([⟨50, 1, 2, 1, 2, some 5⟩] : List Obs).filter (inRange 0 100)).map
        (fun ob => ob.ts * 1000)) :=
  have hmain := history_bars_within_requested_range initState 0 "AAPL" "1D" 0 100
    provOne [⟨50, 1, 2, 1, 2, some 5⟩] [50000] [1] [2] [1] [2] [5]
    (by decide) rfl (by decide)
  ⟨hmain.1 50000 (by simp), hmain.2⟩

/-- C2: on a fresh fetch, the six parallel arrays of the success body have
equal length and the times array is sorted in non-decreasing order. -/
theorem history_response_parallel_sorted (st : ServerState) (now : ℚ)
    (symbol resolution : String) (from_ts to_ts : Int)
    (provider : String → String → String → Except String (List Obs))
    (hist : List Obs) (t : List Int) (o h l c : List ℚ) (v : List Int)
    (hmiss : cacheLookup st (cache_key symbol resolution from_ts to_ts) now = none)
    (hp : provider symbol (periodInterval resolution).1
        (periodInterval resolution).2 = Except.ok hist)
    (hok : (handle_history st now symbol resolution from_ts to_ts provider).response
        = Response.ok t o h l c v) :
    t.length = o.length ∧ o.length = h.length ∧ h.length = l.length ∧
    l.length = c.length ∧ c.length = v.length ∧ List.Sorted (· ≤ ·) t := by
  obtain ⟨ht, ho, hh, hl, hc, hv⟩ := handle_history_ok_response st now symbol
    resolution from_ts to_ts provider hist t o h l c v hmiss hp hok
  subst ht ho hh hl hc hv
  refine ⟨by simp, by simp, by simp, by simp, by simp, ?_⟩
  have hs : List.Sorted barLE (sortBars (filteredBars hist from_ts to_ts)) :=
    List.sorted_insertionSort barLE (filteredBars hist from_ts to_ts)
  exact List.Pairwise.map Bar.time (fun a b hab => hab) hs

/-- Witness for `history_response_parallel_sorted` at a concrete fetch. -/
theorem history_response_parallel_sorted_witness :
    ([(50000 : Int)]).length = ([(1 : ℚ)]).length ∧
    ([(1 : ℚ)]).length = ([(2 : ℚ)]).length ∧
    ([(2 : ℚ)]).length = ([(1 : ℚ)]).length ∧
    ([(1 : ℚ)]).length = ([(2 : ℚ)]).length ∧
    ([(2 : ℚ)]).length = ([(5 : Int)]).length ∧
    List.Sorted (· ≤ ·) [(50000 : Int)] :=
  history_response_parallel_sorted initState 0 "AAPL" "1D" 0 100 provOne
    [⟨50, 1, 2, 1, 2, some 5⟩] [50000] [1] [2] [1] [2] [5]
    (by decide) rfl (by decide)

theorem handle_history_store_shape (st : ServerState) (now : ℚ)
    (symbol resolution : String) (from_ts to_ts : Int)
    (provider : String → String → String → Except String (List Obs))
    (hfetch : (handle_history st now symbol resolution from_ts to_ts
        provider).providerCall ≠ none)
    (hok : (handle_history st now symbol resolution from_ts to_ts
        provider).response.isOk = true) :
    ∃ hist : List Obs,
      handle_history st now symbol resolution from_ts to_ts provider =
        ⟨okResponse hist from_ts to_ts,
          cachePut st (cache_key symbol resolution from_ts to_ts)
            (okResponse hist from_ts to_ts) now,
          some (upstreamQuery symbol resolution from_ts to_ts)⟩ := by
  unfold handle_history at hfetch hok ⊢
  cases hc : cacheLookup st (cache_key symbol resolution from_ts to_ts) now
  · cases hp : provider symbol (periodInterval resolution).1
        (periodInterval resolution).2
    · simp [hc, upstreamQuery, hp, Response.isOk] at hok
    · rename_i hist
      by_cases he : hist.isEmpty
      · simp [hc, upstreamQuery, hp, he, Response.isOk] at hok
      · exact ⟨hist, by simp [hc, upstreamQuery, hp, he]⟩
  · simp [hc] at hfetch

/-- C6 (amended): when the first request misses the cache and yields a
success envelope, that envelope is stored under the request key with
expiry = first-request time + 300 seconds, overwriting any existing entry;
a second identical request arriving before that expiry is answered with
the identical payload, without invoking the provider and without changing
the state. (The unamended claim fails when the first request does not
store anything — see the counterexample.) -/
theorem repeat_request_within_ttl_cached (st : ServerState) (t1 t2 : ℚ)
    (symbol resolution : String) (from_ts to_ts : Int)
    (p1 p2 : String → String → String → Except String (List Obs))
    (hfetch : (handle_history st t1 symbol resolution from_ts to_ts
        p1).providerCall ≠ none)
    (hok : (handle_history st t1 symbol resolution from_ts to_ts
        p1).response.isOk = true)
    (h12 : t1 ≤ t2) (httl : t2 < t1 + 300) :
    handle_history (handle_history st t1 symbol resolution from_ts to_ts p1).state
        t2 symbol resolution from_ts to_ts p2 =
      ⟨(handle_history st t1 symbol resolution from_ts to_ts p1).response,
        (handle_history st t1 symbol resolution from_ts to_ts p1).state, none⟩ ∧
    (handle_history st t1 symbol resolution from_ts to_ts
        p1).state.cache_expiry.lookup (cache_key symbol resolution from_ts to_ts)
      = some (t1 + 300) ∧
    (handle_history st t1 symbol resolution from_ts to_ts
        p1).state.data_cache.lookup (cache_key symbol resolution from_ts to_ts)
      = some (handle_history st t1 symbol resolution from_ts to_ts p1).response := by
  obtain ⟨hist, hR⟩ := handle_history_store_shape st t1 symbol resolution
    from_ts to_ts p1 hfetch hok
  rw [hR]
  have hl : cacheLookup
      (cachePut st (cache_key symbol resolution from_ts to_ts)
        (okResponse hist from_ts to_ts) t1)
      (cache_key symbol resolution from_ts to_ts) t2
      = some (okResponse hist from_ts to_ts) := by
    unfold cacheLookup cachePut
    simp only [lookup_dictInsert_self]
    simp [httl]
  refine ⟨?_, ?_, ?_⟩
  · unfold handle_history
    simp only [hl]
  · exact lookup_dictInsert_self _ _ _
  · exact lookup_dictInsert_self _ _ _

/-- Witness for `repeat_request_within_ttl_cached`: a first fetch at time 0
stores the envelope; a repeat of the same request at time 100 is served
from the cache even though its provider would raise. -/
theorem repeat_request_within_ttl_cached_witness :
    handle_history (handle_history initState 0 "AAPL" "1D" 0 100 provOne).state
        100 "AAPL" "1D" 0 100 provErr =
      ⟨(handle_history initState 0 "AAPL" "1D" 0 100 provOne).response,
        (handle_history initState 0 "AAPL" "1D" 0 100 provOne).state, none⟩ ∧
    (handle_history initState 0 "AAPL" "1D" 0 100
        provOne).state.cache_expiry.lookup (cache_key "AAPL" "1D" 0 100)
      = some (0 + 300) ∧
    (handle_history initState 0 "AAPL" "1D" 0 100
        provOne).state.data_cache.lookup (cache_key "AAPL" "1D" 0 100)
      = some (handle_history initState 0 "AAPL" "1D" 0 100 provOne).response :=
  repeat_request_within_ttl_cached initState 0 100 "AAPL" "1D" 0 100 provOne
    provErr (by decide) (by decide) (by decide) (by decide)

/-- C6 counterexample: the claim as stated fails when the first request
yields no data — nothing is cached, so a second identical request 100
seconds later invokes the provider again (two invocations) and can return
a different payload. -/
theorem repeat_request_not_always_cached :
    (handle_history initState 0 "AAPL" "1D" 0 100 provEmpty).response
      = Response.noData ∧
    (handle_history initState 0 "AAPL" "1D" 0 100 provEmpty).providerCall.isSome
      = true ∧
    (handle_history (handle_history initState 0 "AAPL" "1D" 0 100 provEmpty).state
        100 "AAPL" "1D" 0 100 provErr).response = Response.error "boom" ∧
    (handle_history (handle_history initState 0 "AAPL" "1D" 0 100 provEmpty).state
        100 "AAPL" "1D" 0 100 provErr).providerCall.isSome = true ∧
    Response.noData ≠ Response.error "boom" := by
  refine ⟨by decide, by decide, by decide, by decide, by decide⟩

/-- C10: in every server state reachable from process start by history
requests, every value stored in `data_cache` is a success ("ok") envelope
— no-data and error responses are never written — and therefore every
cache hit serves a success envelope. -/
theorem cache_values_always_ok (st : ServerState) (hr : Reachable st) :
    (∀ k v, st.data_cache.lookup k = some v → v.isOk = true) ∧
    (∀ k now v, cacheLookup st k now = some v → v.isOk = true) := by
  have hmain : ∀ k v, st.data_cache.lookup k = some v → v.isOk = true := by
    induction hr with
    | init =>
      intro k v hv
      simp [initState] at hv
    | step st0 now symbol resolution from_ts to_ts provider hr0 ih =>
      intro k v hv
      unfold handle_history at hv
      cases hc : cacheLookup st0 (cache_key symbol resolution from_ts to_ts) now
      · cases hp : provider symbol (periodInterval resolution).1
            (periodInterval resolution).2
        · simp only [hc, upstreamQuery, hp] at hv
          exact ih k v hv
        · rename_i hist
          by_cases he : hist.isEmpty
          · simp only [hc, upstreamQuery, hp, he, if_true] at hv
            exact ih k v hv
          · simp only [hc, upstreamQuery, hp, he, Bool.false_eq_true, if_false] at hv
            by_cases hk : k = cache_key symbol resolution from_ts to_ts
            · subst hk
              rw [show (cachePut st0 (cache_key symbol resolution from_ts to_ts)
                  (okResponse hist from_ts to_ts) now).data_cache
                  = dictInsert (cache_key symbol resolution from_ts to_ts)
                    (okResponse hist from_ts to_ts) st0.data_cache from rfl,
                lookup_dictInsert_self] at hv
              cases hv
              rfl
            · rw [show (cachePut st0 (cache_key symbol resolution from_ts to_ts)
                  (okResponse hist from_ts to_ts) now).data_cache
                  = dictInsert (cache_key symbol resolution from_ts to_ts)
                    (okResponse hist from_ts to_ts) st0.data_cache from rfl,
                lookup_dictInsert_ne _ _ _ _ hk] at hv
              exact ih k v hv
      · simp only [hc] at hv
        exact ih k v hv
  refine ⟨hmain, ?_⟩
  intro k now v hv
  unfold cacheLookup at hv
  by_cases hcond : (st.data_cache.lookup k).isSome
      ∧ now < (st.cache_expiry.lookup k).getD 0
  · rw [if_pos hcond] at hv
    exact hmain k v hv
  · rw [if_neg hcond] at hv
    cases hv

/-- Witness for `cache_values_always_ok`: after one successful fetch from
the initial state, the entry stored under the request key is the success
envelope. -/
theorem cache_values_always_ok_witness :
    (okResponse [⟨50, 1, 2, 1, 2, some 5⟩] 0 100).isOk = true :=
  (cache_values_always_ok
      (handle_history initState 0 "AAPL" "1D" 0 100 provOne).state
      (Reachable.step initState 0 "AAPL" "1D" 0 100 provOne Reachable.init)).1
    (cache_key "AAPL" "1D" 0 100) (okResponse [⟨50, 1, 2, 1, 2, some 5⟩] 0 100)
    (by decide)
